import Mathlib

/-!
Verification development for the organixBackend task-tracking API.

The definitions below are a shallow embedding of the JavaScript source:

* `src/models/Task.js`, `src/models/Subtask.js`, `src/models/TaskInstance.js`
  become Lean structures (Mongo ObjectIds become `Nat` identifiers, calendar
  days become `Int` day numbers — every date in the routes is normalized to
  the start of its day before use, so a day-level integer is faithful).
* route handlers become pure functions from the relevant documents to an
  `Except`/pair result; a handler that persists writes returns the updated
  documents, and a handler that can answer an HTTP error returns the error
  message it would send.
-/

namespace Organix

/-- A task document (`src/models/Task.js`): title, completed flag, integer
`order` (schema default 0), optional `startDate`/`endDate`, owner, creation
time (`timestamps: true`), and the ordered list of subtask ids. -/
structure Task where
  id : Nat
  userId : Nat
  title : String
  completed : Bool
  order : Int
  startDate : Option Int
  endDate : Option Int
  createdAt : Nat
  subtasks : List Nat
deriving DecidableEq

/-- A subtask document (`src/models/Subtask.js`). -/
structure Subtask where
  id : Nat
  taskId : Nat
  title : String
  completed : Bool
  notes : String
deriving DecidableEq

/-- One `{ subtaskId, completed }` entry embedded in a task instance
(`src/models/TaskInstance.js`). -/
structure SubtaskInstanceEntry where
  subtaskId : Nat
  completed : Bool
deriving DecidableEq

/-- A task-instance document (`src/models/TaskInstance.js`): one per
(task, user, day) triple, with its own completed flag and the embedded
subtask-instance entries. -/
structure TaskInstanceDoc where
  id : Nat
  taskId : Nat
  userId : Nat
  date : Int
  completed : Bool
  subtaskInstances : List SubtaskInstanceEntry
deriving DecidableEq

/-! ## Task reordering (`PUT /tasks/:id/order`, `src/routes/tasks.js` 317-449)

The handler recomputes the sibling group (`allTasks`, the query result for
the task's date or the user's static tasks), lazily repairs the order
values, re-sorts by order, and swaps the target with its neighbor.  We model
the handler from the point where the group is known, taking the group (in
query order) as input and returning the group's final persisted state
together with the HTTP outcome. -/

/-- The properness check of `tasks.js` line 372:
`allTasks.every(t => t.order > 0) && new Set(allTasks.map(t => t.order)).size === allTasks.length`
(every order positive, and no two tasks share an order value). -/
def hasProperOrders (g : List Task) : Bool :=
  g.all (fun t => decide (0 < t.order)) &&
    decide ((g.map (fun t => t.order)).dedup.length = g.length)

/-- The comparator of the repair sort (`tasks.js` lines 378-381): by existing
`order` ascending, ties broken by `createdAt` ascending.  (JavaScript
`Array.prototype.sort` is stable; we realize the stable sort with
`List.insertionSort`, which is also stable.) -/
def repairLE (a b : Task) : Prop :=
  a.order < b.order ∨ (a.order = b.order ∧ a.createdAt ≤ b.createdAt)

instance : DecidableRel repairLE := fun a b => by
  unfold repairLE; infer_instance

instance : IsTotal Task repairLE where
  total a b := by
    unfold repairLE
    rcases lt_trichotomy a.order b.order with h | h | h
    · exact Or.inl (Or.inl h)
    · rcases Nat.le_total a.createdAt b.createdAt with h2 | h2
      · exact Or.inl (Or.inr ⟨h, h2⟩)
      · exact Or.inr (Or.inr ⟨h.symm, h2⟩)
    · exact Or.inr (Or.inl h)

instance : IsTrans Task repairLE where
  trans a b c hab hbc := by
    unfold repairLE at *
    rcases hab with h1 | ⟨h1, h1c⟩
    · rcases hbc with h2 | ⟨h2, _⟩
      · exact Or.inl (h1.trans h2)
      · exact Or.inl (h2 ▸ h1)
    · rcases hbc with h2 | ⟨h2, h2c⟩
      · exact Or.inl (h1 ▸ h2)
      · exact Or.inr ⟨h1.trans h2, h1c.trans h2c⟩

/-- The repair step (`tasks.js` lines 375-389): stable-sort the group by
(existing order, creation time) and reassign sequential orders `1..N`
(`allTasks[i].order = i + 1`, each task saved). -/
def repairOrders (g : List Task) : List Task :=
  ((List.insertionSort repairLE g).enum).map
    (fun p => { p.2 with order := (p.1 : Int) + 1 })

/-- Lines 371-389 as a whole: the repair step runs only when the properness
check fails. -/
def repairPhase (g : List Task) : List Task :=
  if hasProperOrders g then g else repairOrders g

/-- The re-sort of line 392: `allTasks.sort((a, b) => a.order - b.order)`. -/
def orderLE (a b : Task) : Prop := a.order ≤ b.order

instance : DecidableRel orderLE := fun a b => by
  unfold orderLE; infer_instance

instance : IsTotal Task orderLE where
  total a b := le_total a.order b.order

instance : IsTrans Task orderLE where
  trans _ _ _ hab hbc := le_trans hab hbc

def sortByOrder (g : List Task) : List Task := List.insertionSort orderLE g

/-- The swap of `tasks.js` lines 423-432: exchange the `order` values of the
tasks at positions `i` and `j` of the freshly sorted group and persist both. -/
def swapOrders (l : List Task) (i j : Nat) : List Task :=
  match l[i]?, l[j]? with
  | some a, some b =>
      (l.set i { a with order := b.order }).set j { b with order := a.order }
  | _, _ => l

inductive Direction where
  | up
  | down
deriving DecidableEq

/-- The reorder handler (`tasks.js` 317-449) from the point where the sibling
group `g` is known.  Returns the final persisted state of the group together
with the outcome (`Except.error` is the HTTP 4xx message).  Note that in the
boundary-failure branches the state component is the repaired, re-sorted
group: the repair saves of lines 384-387 have already been persisted. -/
def reorderStep (g : List Task) (taskId : Nat) (dir : Direction) :
    List Task × Except String Unit :=
  if g.length ≤ 1 then (g, Except.error "Cannot reorder with only one task")
  else
    match (sortByOrder (repairPhase g)).findIdx? (fun t => t.id == taskId) with
    | none => (sortByOrder (repairPhase g), Except.error "Task not found in list")
    | some ci =>
      match dir with
      | Direction.up =>
          if 0 < ci then
            (swapOrders (sortByOrder (repairPhase g)) ci (ci - 1), Except.ok ())
          else (sortByOrder (repairPhase g), Except.error "Cannot move task up")
      | Direction.down =>
          if ci < (sortByOrder (repairPhase g)).length - 1 then
            (swapOrders (sortByOrder (repairPhase g)) ci (ci + 1), Except.ok ())
          else (sortByOrder (repairPhase g), Except.error "Cannot move task down")

/-- The order value of the task with id `i` in a group (used to compare a
single task's order before and after a request). -/
def orderOfId (g : List Task) (i : Nat) : Option Int :=
  (g.find? (fun t => t.id == i)).map (fun t => t.order)

/-- Spec-side predicate, written from the specification's words (not from the
code), for the refinement comparison of claim C1: the group's order values
form "a dense, collision-free 1..N sequence", i.e. sorted ascending they are
exactly `[1, ..., N]`. -/
def ordersAreDenseOneToN (g : List Task) : Prop :=
  List.insertionSort (fun a b => a ≤ b) (g.map (fun t => t.order))
    = (List.range g.length).map (fun i : Nat => (i : Int) + 1)

instance (g : List Task) : Decidable (ordersAreDenseOneToN g) := by
  unfold ordersAreDenseOneToN; infer_instance

/-- Helper: a list of integers whose `dedup` has full length has no
duplicates. -/
theorem nodup_of_dedup_length_eq {l : List Int} (h : l.dedup.length = l.length) :
    l.Nodup := by
  have hsub : l.dedup.Sublist l := l.dedup_sublist
  have heq : l.dedup = l := hsub.eq_of_length h
  exact heq ▸ l.nodup_dedup

/-- Helper: the properness check implies the order values are pairwise
distinct. -/
theorem hasProperOrders_nodup {g : List Task} (h : hasProperOrders g = true) :
    (g.map (fun t => t.order)).Nodup := by
  unfold hasProperOrders at h
  simp only [Bool.and_eq_true, decide_eq_true_eq] at h
  refine nodup_of_dedup_length_eq ?_
  rw [List.length_map]
  exact h.2

/-- Helper: `sortByOrder` permutes the group. -/
theorem sortByOrder_perm (g : List Task) : (sortByOrder g).Perm g :=
  List.perm_insertionSort orderLE g

/-- Helper: `repairOrders` assigns exactly the order values `1..N` (in list
position order) and keeps the same task ids up to permutation. -/
theorem repairOrders_spec (g : List Task) :
    (repairOrders g).map (fun t => t.order)
        = (List.range g.length).map (fun i : Nat => (i : Int) + 1)
      ∧ ((repairOrders g).map (fun t => t.id)).Perm (g.map (fun t => t.id)) := by
  unfold repairOrders
  constructor
  · rw [List.map_map]
    have h1 : ((fun t => t.order) ∘ fun p : Nat × Task => { p.2 with order := (p.1 : Int) + 1 })
        = (fun i : Nat => (i : Int) + 1) ∘ (Prod.fst : Nat × Task → Nat) := by
      funext p; rfl
    rw [h1, ← List.map_map, List.enum_map_fst, ← List.length_insertionSort repairLE g]
  · rw [List.map_map]
    have h1 : ((fun t => t.id) ∘ fun p : Nat × Task => { p.2 with order := (p.1 : Int) + 1 })
        = (fun t => t.id) ∘ (Prod.snd : Nat × Task → Task) := by
      funext p; rfl
    rw [h1, ← List.map_map, List.enum_map_snd]
    exact (List.perm_insertionSort repairLE g).map (fun t => t.id)

/-- C1 (amended): the repair step of the reorder handler runs exactly when
the group fails the code's properness check — some task's order is not
positive, or two tasks share an order value (not, as the claim states,
whenever the orders are not a dense 1..N sequence).  When the check passes
the group is left untouched; when it fails, the group is stable-sorted by
(existing order ascending, creation time ascending) and orders `1..N` are
reassigned, so afterwards every task has a unique order and the multiset of
orders is exactly `{1, ..., N}` with no duplicate or skipped values. -/
theorem c1_order_repair (g : List Task) :
    (hasProperOrders g = true → repairPhase g = g)
    ∧ (hasProperOrders g = false →
        (repairPhase g).map (fun t => t.order)
            = (List.range g.length).map (fun i : Nat => (i : Int) + 1)
          ∧ ((repairPhase g).map (fun t => t.order)).Nodup
          ∧ ((repairPhase g).map (fun t => t.id)).Perm (g.map (fun t => t.id))) := by
  constructor
  · intro h; unfold repairPhase; rw [h]; rfl
  · intro h
    unfold repairPhase
    rw [h]
    simp only [Bool.false_eq_true, if_false]
    refine ⟨(repairOrders_spec g).1, ?_, (repairOrders_spec g).2⟩
    rw [(repairOrders_spec g).1]
    have hinj : Function.Injective (fun i : Nat => (i : Int) + 1) := by
      intro a b hab
      simpa using hab
    exact (List.nodup_range g.length).map hinj

/-- Witness for C1: a group with orders `(0, 5)` fails the properness check,
and the repair phase reassigns orders `1..2`. -/
def c1wTask1 : Task :=
  { id := 1, userId := 1, title := "a", completed := false, order := 0,
    startDate := none, endDate := none, createdAt := 1, subtasks := [] }

def c1wTask2 : Task :=
  { id := 2, userId := 1, title := "b", completed := false, order := 5,
    startDate := none, endDate := none, createdAt := 2, subtasks := [] }

theorem c1_order_repair_witness :
    hasProperOrders [c1wTask1, c1wTask2] = false
    ∧ (repairPhase [c1wTask1, c1wTask2]).map (fun t => t.order)
        = (List.range ([c1wTask1, c1wTask2] : List Task).length).map
            (fun i : Nat => (i : Int) + 1) := by
  refine ⟨by decide, ?_⟩
  exact ((c1_order_repair [c1wTask1, c1wTask2]).2 (by decide)).1

/-- Counterexample for C1 as stated: a group whose orders are `(2, 3)` is
not a dense collision-free `1..N` sequence (the claim therefore asserts the
repair step runs and reassigns `1..2`), yet the handler's properness check
passes — both orders are positive and distinct — so the repair phase leaves
the group, and its order values `(2, 3)`, unchanged. -/
def c1cTask1 : Task :=
  { id := 1, userId := 1, title := "a", completed := false, order := 2,
    startDate := none, endDate := none, createdAt := 1, subtasks := [] }

def c1cTask2 : Task :=
  { id := 2, userId := 1, title := "b", completed := false, order := 3,
    startDate := none, endDate := none, createdAt := 2, subtasks := [] }

theorem c1_counterexample :
    ¬ ordersAreDenseOneToN [c1cTask1, c1cTask2]
    ∧ repairPhase [c1cTask1, c1cTask2] = [c1cTask1, c1cTask2]
    ∧ (repairPhase [c1cTask1, c1cTask2]).map (fun t => t.order) = [2, 3] := by
  refine ⟨by decide, by decide, by decide⟩

/-- Helper: `swapOrders` preserves the length of the group. -/
theorem swapOrders_length (l : List Task) (i j : Nat) :
    (swapOrders l i j).length = l.length := by
  unfold swapOrders
  cases h1 : l[i]? <;> cases h2 : l[j]? <;> simp

/-- Helper: elementwise description of `swapOrders` at valid distinct
positions. -/
theorem swapOrders_getElem? (l : List Task) (i j : Nat)
    (hi : i < l.length) (hj : j < l.length) (hij : i ≠ j) (k : Nat)
    (hk : k < l.length) :
    (swapOrders l i j)[k]? =
      some (if k = i then { l[i] with order := l[j].order }
            else if k = j then { l[j] with order := l[i].order }
            else l[k]) := by
  unfold swapOrders
  simp only [List.getElem?_eq_getElem hi, List.getElem?_eq_getElem hj]
  have hk2 : k <
      ((l.set i { l[i] with order := l[j].order }).set j
        { l[j] with order := l[i].order }).length := by
    simpa using hk
  rw [List.getElem?_eq_getElem hk2]
  by_cases hkj : k = j
  · subst hkj
    rw [List.getElem_set_self hk2, if_neg (fun h => hij h.symm), if_pos rfl]
  · rw [List.getElem_set_ne (fun h => hkj h.symm)]
    by_cases hki : k = i
    · subst hki
      rw [List.getElem_set_self (by simpa using hk), if_pos rfl]
    · rw [List.getElem_set_ne (fun h => hki h.symm), if_neg hki, if_neg hkj]

/-- Helper: distinct positions of a list whose image under `f` has no
duplicates carry distinct `f`-values. -/
theorem nodup_map_getElem_ne {β : Type} (f : Task → β) (l : List Task)
    (hn : (l.map f).Nodup) (i j : Nat) (hi : i < l.length) (hj : j < l.length)
    (hij : i ≠ j) : f l[i] ≠ f l[j] := by
  intro hEq
  have hi2 : i < (l.map f).length := by simpa using hi
  have hj2 : j < (l.map f).length := by simpa using hj
  have h1 : (l.map f)[i] = (l.map f)[j] := by
    rw [List.getElem_map, List.getElem_map]
    exact hEq
  exact hij ((List.Nodup.getElem_inj_iff hn).1 h1)

/-- Helper: in a group sorted by order with pairwise-distinct order values,
positions increase strictly in order. -/
theorem sorted_strict_order (g2 : List Task)
    (hs : List.Sorted orderLE g2)
    (hord : (g2.map (fun t => t.order)).Nodup)
    (i j : Nat) (hi : i < g2.length) (hj : j < g2.length) (hij : i < j) :
    g2[i].order < g2[j].order := by
  have hle : orderLE g2[i] g2[j] := List.pairwise_iff_getElem.1 hs i j hi hj hij
  have hne : g2[i].order ≠ g2[j].order :=
    nodup_map_getElem_ne (fun t => t.order) g2 hord i j hi hj (by omega)
  exact lt_of_le_of_ne hle hne

/-- Helper: the element-level effect of the swap on the group: the two tasks
at the swapped positions get their order values exchanged; every other task
record is untouched and remains in the group. -/
theorem swap_core (g g2 : List Task) (i j : Nat)
    (hperm : g2.Perm g)
    (hi : i < g2.length) (hj : j < g2.length) (hij : i ≠ j) :
    ({ g2[i] with order := g2[j].order }) ∈ swapOrders g2 i j
    ∧ ({ g2[j] with order := g2[i].order }) ∈ swapOrders g2 i j
    ∧ (∀ x ∈ g, x ≠ g2[i] → x ≠ g2[j] → x ∈ swapOrders g2 i j)
    ∧ (swapOrders g2 i j).length = g.length := by
  refine ⟨?_, ?_, ?_, ?_⟩
  · have h := swapOrders_getElem? g2 i j hi hj hij i hi
    rw [if_pos rfl] at h
    exact List.getElem?_mem h
  · have h := swapOrders_getElem? g2 i j hi hj hij j hj
    rw [if_neg (fun hh => hij hh.symm), if_pos rfl] at h
    exact List.getElem?_mem h
  · intro x hx hxa hxb
    have hx2 : x ∈ g2 := hperm.mem_iff.2 hx
    obtain ⟨k, hk, hkx⟩ := List.mem_iff_getElem.1 hx2
    have hki : k ≠ i := by
      intro he
      subst he
      exact hxa hkx.symm
    have hkj : k ≠ j := by
      intro he
      subst he
      exact hxb hkx.symm
    have h := swapOrders_getElem? g2 i j hi hj hij k hk
    rw [if_neg hki, if_neg hkj, hkx] at h
    exact List.getElem?_mem h
  · rw [swapOrders_length]
    exact hperm.length_eq

/-- C2 (amended): when the sibling group already passes the handler's
properness check (all order values positive and pairwise distinct — the
common path, on which the repair step does not run), a successful up/down
reorder exchanges exactly the order values of the target task and its
immediate order-neighbor in the requested direction, and every other
sibling's record (its order value included) is unchanged by the request.
When the group first needs repair, the repair saves can change other
siblings' order values as well (see the counterexample). -/
theorem c2_swap_frame (g : List Task) (taskId : Nat) (dir : Direction)
    (g' : List Task)
    (hnodup : (g.map (fun t => t.id)).Nodup)
    (hproper : hasProperOrders g = true)
    (hok : reorderStep g taskId dir = (g', Except.ok ())) :
    ∃ a b, a ∈ g ∧ b ∈ g ∧ a.id = taskId ∧ a.id ≠ b.id
      ∧ ({ a with order := b.order }) ∈ g'
      ∧ ({ b with order := a.order }) ∈ g'
      ∧ (∀ x ∈ g, x ≠ a → x ≠ b → x ∈ g')
      ∧ g'.length = g.length
      ∧ (dir = Direction.up → b.order < a.order)
      ∧ (dir = Direction.down → a.order < b.order)
      ∧ (∀ x ∈ g, x ≠ a → x ≠ b →
          ¬(min a.order b.order < x.order ∧ x.order < max a.order b.order)) := by
  have hrepair : repairPhase g = g := by
    simp [repairPhase, hproper]
  have hperm : (sortByOrder g).Perm g := sortByOrder_perm g
  have hsorted : List.Sorted orderLE (sortByOrder g) :=
    List.sorted_insertionSort orderLE g
  have hnodups2 : ((sortByOrder g).map (fun t => t.id)).Nodup :=
    (hperm.map (fun t => t.id)).nodup_iff.2 hnodup
  have hordnodup : ((sortByOrder g).map (fun t => t.order)).Nodup :=
    (hperm.map (fun t => t.order)).nodup_iff.2 (hasProperOrders_nodup hproper)
  unfold reorderStep at hok
  rw [hrepair] at hok
  split at hok
  · simp at hok
  · split at hok
    · simp at hok
    · rename_i ci hidx
      obtain ⟨hciLen, hfi⟩ := List.findIdx?_eq_some_iff_findIdx_eq.1 hidx
      have hpa : ((sortByOrder g)[ci].id == taskId) = true := by
        have hw : (sortByOrder g).findIdx (fun t => t.id == taskId)
            < (sortByOrder g).length := by
          rw [hfi]
          exact hciLen
        have h := @List.findIdx_getElem _ (fun t => t.id == taskId)
          (sortByOrder g) hw
        simp only [hfi] at h
        exact h
      have haid : (sortByOrder g)[ci].id = taskId := by simpa using hpa
      split at hok
      · -- direction "up"
        split at hok
        · rename_i hpos
          have hg' : swapOrders (sortByOrder g) ci (ci - 1) = g' :=
            congrArg Prod.fst hok
          subst hg'
          have hti : ci - 1 < (sortByOrder g).length := by omega
          have hij : ci ≠ ci - 1 := by omega
          obtain ⟨hmem1, hmem2, hframe, hlenEq⟩ :=
            swap_core g (sortByOrder g) ci (ci - 1) hperm hciLen hti hij
          have hba : (sortByOrder g)[ci - 1].order < (sortByOrder g)[ci].order :=
            sorted_strict_order (sortByOrder g) hsorted hordnodup (ci - 1) ci
              hti hciLen (by omega)
          refine ⟨(sortByOrder g)[ci], (sortByOrder g)[ci - 1],
            hperm.mem_iff.1 (List.getElem_mem hciLen),
            hperm.mem_iff.1 (List.getElem_mem hti),
            haid,
            nodup_map_getElem_ne (fun t => t.id) (sortByOrder g) hnodups2
              ci (ci - 1) hciLen hti hij,
            hmem1, hmem2, hframe, hlenEq,
            fun _ => hba,
            fun hdd => absurd hdd (by decide),
            ?_⟩
          intro x hx hxa hxb
          rintro ⟨hlow, hhigh⟩
          rw [min_eq_right (le_of_lt hba)] at hlow
          rw [max_eq_left (le_of_lt hba)] at hhigh
          obtain ⟨k, hk, hkx⟩ := List.mem_iff_getElem.1 (hperm.mem_iff.2 hx)
          have hki : k ≠ ci := by
            intro he
            subst he
            exact hxa hkx.symm
          have hkt : k ≠ ci - 1 := by
            intro he
            subst he
            exact hxb hkx.symm
          rcases Nat.lt_or_ge k (ci - 1) with hcase | hcase
          · have hlt := sorted_strict_order (sortByOrder g) hsorted hordnodup
              k (ci - 1) hk hti hcase
            rw [hkx] at hlt
            exact lt_asymm hlt hlow
          · have hgt : ci < k := by omega
            have hlt := sorted_strict_order (sortByOrder g) hsorted hordnodup
              ci k hciLen hk hgt
            rw [hkx] at hlt
            exact lt_asymm hlt hhigh
        · simp at hok
      · -- direction "down"
        split at hok
        · rename_i hlt1
          have hg' : swapOrders (sortByOrder g) ci (ci + 1) = g' :=
            congrArg Prod.fst hok
          subst hg'
          have hti : ci + 1 < (sortByOrder g).length := by omega
          have hij : ci ≠ ci + 1 := by omega
          obtain ⟨hmem1, hmem2, hframe, hlenEq⟩ :=
            swap_core g (sortByOrder g) ci (ci + 1) hperm hciLen hti hij
          have hab : (sortByOrder g)[ci].order < (sortByOrder g)[ci + 1].order :=
            sorted_strict_order (sortByOrder g) hsorted hordnodup ci (ci + 1)
              hciLen hti (by omega)
          refine ⟨(sortByOrder g)[ci], (sortByOrder g)[ci + 1],
            hperm.mem_iff.1 (List.getElem_mem hciLen),
            hperm.mem_iff.1 (List.getElem_mem hti),
            haid,
            nodup_map_getElem_ne (fun t => t.id) (sortByOrder g) hnodups2
              ci (ci + 1) hciLen hti hij,
            hmem1, hmem2, hframe, hlenEq,
            fun hdd => absurd hdd (by decide),
            fun _ => hab,
            ?_⟩
          intro x hx hxa hxb
          rintro ⟨hlow, hhigh⟩
          rw [min_eq_left (le_of_lt hab)] at hlow
          rw [max_eq_right (le_of_lt hab)] at hhigh
          obtain ⟨k, hk, hkx⟩ := List.mem_iff_getElem.1 (hperm.mem_iff.2 hx)
          have hki : k ≠ ci := by
            intro he
            subst he
            exact hxa hkx.symm
          have hkt : k ≠ ci + 1 := by
            intro he
            subst he
            exact hxb hkx.symm
          rcases Nat.lt_or_ge k ci with hcase | hcase
          · have hlt := sorted_strict_order (sortByOrder g) hsorted hordnodup
              k ci hk hciLen hcase
            rw [hkx] at hlt
            exact lt_asymm hlt hlow
          · have hgt : ci + 1 < k := by omega
            have hlt := sorted_strict_order (sortByOrder g) hsorted hordnodup
              (ci + 1) k hti hk hgt
            rw [hkx] at hlt
            exact lt_asymm hlt hhigh
        · simp at hok

/-- Convenience constructor for concrete task groups (static task of user 1
with the given id, order and creation time). -/
def mkTask (i : Nat) (ord : Int) (created : Nat) : Task :=
  { id := i, userId := 1, title := "t", completed := false, order := ord,
    startDate := none, endDate := none, createdAt := created, subtasks := [] }

/-- Counterexample for C2 as stated: the claim asserts every successful
reorder changes exactly the two swapped tasks' order values.  In the group
`[(id 1, order 1), (id 2, order 1), (id 3, order 2)]` the duplicate order
triggers the repair step; a successful "down" reorder of task 1 then leaves
task 3 — which is not one of the two swapped tasks — with order 3 instead of
its pre-request order 2. -/
def c2cResult : List Task :=
  [{ mkTask 1 1 1 with order := 2 }, { mkTask 2 1 2 with order := 1 },
   { mkTask 3 2 3 with order := 3 }]

theorem c2_counterexample :
    reorderStep [mkTask 1 1 1, mkTask 2 1 2, mkTask 3 2 3] 1 Direction.down
      = (c2cResult, Except.ok ())
    ∧ orderOfId [mkTask 1 1 1, mkTask 2 1 2, mkTask 3 2 3] 3 = some 2
    ∧ orderOfId c2cResult 3 = some 3 :=
  ⟨rfl, rfl, rfl⟩

/-- Witness for C2 (amended): in the proper group
`[(id 1, order 1), (id 2, order 2)]`, moving task 2 up succeeds and swaps
exactly the two order values. -/
def c2wResult : List Task :=
  [{ mkTask 1 1 1 with order := 2 }, { mkTask 2 2 2 with order := 1 }]

theorem c2_swap_frame_witness :
    ∃ a b, a ∈ [mkTask 1 1 1, mkTask 2 2 2] ∧ b ∈ [mkTask 1 1 1, mkTask 2 2 2]
      ∧ a.id = 2 ∧ a.id ≠ b.id
      ∧ ({ a with order := b.order }) ∈ c2wResult
      ∧ ({ b with order := a.order }) ∈ c2wResult
      ∧ (∀ x ∈ [mkTask 1 1 1, mkTask 2 2 2], x ≠ a → x ≠ b → x ∈ c2wResult)
      ∧ c2wResult.length = ([mkTask 1 1 1, mkTask 2 2 2] : List Task).length
      ∧ (Direction.up = Direction.up → b.order < a.order)
      ∧ (Direction.up = Direction.down → a.order < b.order)
      ∧ (∀ x ∈ [mkTask 1 1 1, mkTask 2 2 2], x ≠ a → x ≠ b →
          ¬(min a.order b.order < x.order ∧ x.order < max a.order b.order)) :=
  c2_swap_frame [mkTask 1 1 1, mkTask 2 2 2] 2 Direction.up c2wResult
    (by decide) (by decide) rfl

/-- C6: a reorder request on a sibling group of size at most 1 fails with an
error and leaves the group — hence every order value — unchanged; a reorder
of the group's first task (position 0 of the freshly repaired, order-sorted
group) with direction up, or of its last task with direction down, also
fails with an error. -/
theorem c6_reorder_failures (g : List Task) (taskId : Nat) (dir : Direction) :
    (g.length ≤ 1 →
      reorderStep g taskId dir
        = (g, Except.error "Cannot reorder with only one task"))
    ∧ (1 < g.length →
        (sortByOrder (repairPhase g)).findIdx? (fun t => t.id == taskId)
          = some 0 →
        reorderStep g taskId Direction.up
          = (sortByOrder (repairPhase g), Except.error "Cannot move task up"))
    ∧ (∀ ci, 1 < g.length →
        (sortByOrder (repairPhase g)).findIdx? (fun t => t.id == taskId)
          = some ci →
        ci = (sortByOrder (repairPhase g)).length - 1 →
        reorderStep g taskId Direction.down
          = (sortByOrder (repairPhase g),
             Except.error "Cannot move task down")) := by
  refine ⟨?_, ?_, ?_⟩
  · intro h
    unfold reorderStep
    rw [if_pos h]
  · intro hlen hidx
    unfold reorderStep
    rw [if_neg (by omega), hidx]
    simp
  · intro ci hlen hidx hci
    unfold reorderStep
    rw [if_neg (by omega), hidx]
    subst hci
    simp

/-- Witness for C6: a singleton group cannot be reordered; in the proper
two-task group, moving the first task up or the last task down fails. -/
theorem c6_reorder_failures_witness :
    reorderStep [mkTask 1 1 1] 1 Direction.up
      = ([mkTask 1 1 1], Except.error "Cannot reorder with only one task")
    ∧ reorderStep [mkTask 1 1 1, mkTask 2 2 2] 1 Direction.up
      = (sortByOrder (repairPhase [mkTask 1 1 1, mkTask 2 2 2]),
         Except.error "Cannot move task up")
    ∧ reorderStep [mkTask 1 1 1, mkTask 2 2 2] 2 Direction.down
      = (sortByOrder (repairPhase [mkTask 1 1 1, mkTask 2 2 2]),
         Except.error "Cannot move task down") :=
  ⟨(c6_reorder_failures [mkTask 1 1 1] 1 Direction.up).1 (by decide),
   (c6_reorder_failures [mkTask 1 1 1, mkTask 2 2 2] 1 Direction.up).2.1
     (by decide) (by decide),
   (c6_reorder_failures [mkTask 1 1 1, mkTask 2 2 2] 2 Direction.down).2.2 1
     (by decide) (by decide) (by decide)⟩

/-! ## Task instances (`src/routes/taskInstances.js`) and task deletion
(`src/routes/tasks.js` 233-253)

The handlers read and write three document collections.  We model the
relevant slice of the database as a `Store` and each handler as a function
from the store (plus the authenticated user id and the path parameters) to
the resulting store and HTTP outcome.  A Mongoose `save` of a fetched
document is modelled as replacing the entry with the same id. -/

structure Store where
  tasks : List Task
  subtasks : List Subtask
  instances : List TaskInstanceDoc
deriving DecidableEq

/-- `getOrCreateTaskInstance` (`taskInstances.js` 11-89), given the parent
task's current subtask id list and the result of the lookup by
(task, user, day).  If no instance exists, a new one is created with a
non-completed entry per current subtask (lines 36-51).  Otherwise the
instance is synced: entries are appended (non-completed) for subtasks
missing from the instance — membership tested against the instance's
original id set, as in the code — and entries whose subtask no longer
exists on the task are filtered out (lines 52-86). -/
def getOrCreateTaskInstance (taskSubtaskIds : List Nat)
    (existing : Option TaskInstanceDoc) (newId taskId userId : Nat)
    (date : Int) : TaskInstanceDoc :=
  match existing with
  | none =>
      { id := newId, taskId := taskId, userId := userId, date := date,
        completed := false,
        subtaskInstances :=
          taskSubtaskIds.map (fun s => { subtaskId := s, completed := false }) }
  | some inst =>
      let instIds := inst.subtaskInstances.map (fun si => si.subtaskId)
      let withAdded := inst.subtaskInstances ++
        (taskSubtaskIds.filter (fun s => decide (s ∉ instIds))).map
          (fun s => { subtaskId := s, completed := false })
      { inst with subtaskInstances :=
          withAdded.filter (fun si => decide (si.subtaskId ∈ taskSubtaskIds)) }

/-- The toggle of `taskInstances.js` line 202: `subtaskInstance` is located
with `Array.prototype.find`, so only the first entry with the given subtask
id is toggled. -/
def toggleFirstEntry (sid : Nat) :
    List SubtaskInstanceEntry → List SubtaskInstanceEntry
  | [] => []
  | e :: rest =>
      if e.subtaskId == sid then { e with completed := !e.completed } :: rest
      else e :: toggleFirstEntry sid rest

/-- `PUT /task-instances/:id/subtask/:subtaskId` (`taskInstances.js`
185-230): toggle one subtask instance, then recompute the instance's own
completed flag — complete when all subtask instances are complete (and the
list is nonempty), incomplete when some subtask instance is incomplete and
the instance was previously complete.  Only the instance store is written. -/
def toggleSubtaskInstanceCore (inst : TaskInstanceDoc) (subtaskId : Nat) :
    TaskInstanceDoc :=
  { inst with
      completed :=
        if (toggleFirstEntry subtaskId inst.subtaskInstances).all
              (fun si => si.completed)
            && decide (0 < (toggleFirstEntry subtaskId
                inst.subtaskInstances).length) then
          true
        else if (toggleFirstEntry subtaskId inst.subtaskInstances).any
              (fun si => !si.completed)
            && inst.completed then
          false
        else inst.completed,
      subtaskInstances := toggleFirstEntry subtaskId inst.subtaskInstances }

def toggleSubtaskInstance (st : Store) (userId instanceId subtaskId : Nat) :
    Store × Except String TaskInstanceDoc :=
  match st.instances.find? (fun i => i.id == instanceId && i.userId == userId) with
  | none => (st, Except.error "Task instance not found")
  | some inst =>
    match inst.subtaskInstances.find? (fun si => si.subtaskId == subtaskId) with
    | none => (st, Except.error "Subtask instance not found")
    | some _ =>
      ({ st with instances :=
          st.instances.map (fun i =>
            if i.id == inst.id then toggleSubtaskInstanceCore inst subtaskId
            else i) },
       Except.ok (toggleSubtaskInstanceCore inst subtaskId))

/-- `PUT /task-instances/:id/complete` (`taskInstances.js` 150-180): negate
the instance's completed flag and force every embedded subtask instance's
flag to the new value. -/
def toggleInstanceComplete (st : Store) (userId instanceId : Nat) :
    Store × Except String TaskInstanceDoc :=
  match st.instances.find? (fun i => i.id == instanceId && i.userId == userId) with
  | none => (st, Except.error "Task instance not found")
  | some inst =>
      let newCompleted := !inst.completed
      let newInst :=
        { inst with
            completed := newCompleted,
            subtaskInstances := inst.subtaskInstances.map
              (fun si => { si with completed := newCompleted }) }
      ({ st with instances :=
          st.instances.map (fun i => if i.id == inst.id then newInst else i) },
       Except.ok newInst)

/-- `DELETE /tasks/:id` (`tasks.js` 233-253): after the ownership check, all
subtasks of the task are deleted, then the task itself.  No task instance is
read or written. -/
def deleteTask (st : Store) (userId taskId : Nat) : Store × Except String Unit :=
  match st.tasks.find? (fun t => t.id == taskId && t.userId == userId) with
  | none => (st, Except.error "Task not found")
  | some _ =>
      ({ st with
          subtasks := st.subtasks.filter (fun s => !(s.taskId == taskId)),
          tasks := st.tasks.filter (fun t => !(t.id == taskId)) },
       Except.ok ())

/-- Helper: membership characterization of a find?-result. -/
theorem mem_of_find?_entry {p : SubtaskInstanceEntry → Bool}
    {l : List SubtaskInstanceEntry} {e : SubtaskInstanceEntry}
    (h : l.find? p = some e) : e ∈ l :=
  List.mem_of_find?_eq_some h

/-- Helper: `toggleFirstEntry` preserves the number of entries. -/
theorem toggleFirstEntry_length (sid : Nat) (l : List SubtaskInstanceEntry) :
    (toggleFirstEntry sid l).length = l.length := by
  induction l with
  | nil => rfl
  | cons e rest ih =>
      unfold toggleFirstEntry
      by_cases h : (e.subtaskId == sid) = true
      · rw [if_pos h]
        simp
      · rw [if_neg h]
        simpa using ih

/-- C3: on a read of a day's task instances
(`GET /task-instances/date/:date`), for each matching task: if no instance
exists for the (task, user, day) triple, one is created, non-completed, with
a non-completed entry for every current subtask; if an instance exists, every
current subtask ends up with an entry, every remaining entry's subtask is
current, every surviving entry is kept as the same record — so its completed
flag is preserved — and every entry that was not present before is
non-completed. -/
theorem c3_instance_sync (ts : List Nat) (inst : TaskInstanceDoc)
    (newId taskId userId : Nat) (date : Int) :
    ((getOrCreateTaskInstance ts none newId taskId userId date).completed = false
      ∧ (getOrCreateTaskInstance ts none newId taskId userId date).subtaskInstances
          = ts.map (fun s => { subtaskId := s, completed := false }))
    ∧ ((∀ s ∈ ts,
          ∃ e ∈ (getOrCreateTaskInstance ts (some inst) newId taskId
            userId date).subtaskInstances, e.subtaskId = s)
      ∧ (∀ e ∈ (getOrCreateTaskInstance ts (some inst) newId taskId
            userId date).subtaskInstances, e.subtaskId ∈ ts)
      ∧ (∀ e ∈ inst.subtaskInstances, e.subtaskId ∈ ts →
          e ∈ (getOrCreateTaskInstance ts (some inst) newId taskId
            userId date).subtaskInstances)
      ∧ (∀ e ∈ (getOrCreateTaskInstance ts (some inst) newId taskId
            userId date).subtaskInstances,
          e ∉ inst.subtaskInstances → e.completed = false)) := by
  refine ⟨⟨rfl, rfl⟩, ?_, ?_, ?_, ?_⟩
  · intro s hs
    unfold getOrCreateTaskInstance
    simp only [List.mem_filter, List.mem_append, List.mem_map,
      decide_eq_true_eq]
    by_cases hmem : s ∈ inst.subtaskInstances.map (fun si => si.subtaskId)
    · obtain ⟨e0, he0, heq⟩ := List.mem_map.1 hmem
      exact ⟨e0, ⟨Or.inl he0, heq ▸ hs⟩, heq⟩
    · refine ⟨{ subtaskId := s, completed := false }, ⟨Or.inr ?_, hs⟩, rfl⟩
      exact ⟨s, ⟨hs, by simpa using hmem⟩, rfl⟩
  · intro e he
    unfold getOrCreateTaskInstance at he
    simp only [List.mem_filter, decide_eq_true_eq] at he
    exact he.2
  · intro e he hets
    unfold getOrCreateTaskInstance
    simp only [List.mem_filter, List.mem_append, decide_eq_true_eq]
    exact ⟨Or.inl he, hets⟩
  · intro e he henew
    unfold getOrCreateTaskInstance at he
    simp only [List.mem_filter, List.mem_append, List.mem_map,
      decide_eq_true_eq] at he
    rcases he.1 with hold | ⟨s, _, heq⟩
    · exact absurd hold henew
    · rw [← heq]

/-- Witness for C3: task subtasks `[1, 2]`, instance entries
`[(1, completed), (3, incomplete)]`: after the sync an entry for subtask 2
exists, the stale entry for subtask 3 is gone, and entry 1 keeps its flag. -/
def c3wInst : TaskInstanceDoc :=
  { id := 5, taskId := 1, userId := 1, date := 0, completed := false,
    subtaskInstances := [{ subtaskId := 1, completed := true },
                         { subtaskId := 3, completed := false }] }

theorem c3_instance_sync_witness :
    ∃ e ∈ (getOrCreateTaskInstance [1, 2] (some c3wInst) 9 1 1
        0).subtaskInstances, e.subtaskId = 2 :=
  ((c3_instance_sync [1, 2] c3wInst 9 1 1 0).2.1) 2 (by decide)

/-- C4: toggling one subtask instance of a task instance
(`PUT /task-instances/:id/subtask/:subtaskId`) recomputes the instance's own
completed flag: if afterwards all subtask instances are complete the
instance becomes complete; if afterwards some subtask instance is incomplete
and the instance was previously complete it becomes incomplete; and the
operation writes only the instance store — the Task and Subtask stores are
returned untouched. -/
theorem c4_subtask_instance_toggle (st : Store)
    (userId instanceId subtaskId : Nat) (inst : TaskInstanceDoc)
    (e : SubtaskInstanceEntry)
    (hfind : st.instances.find?
      (fun i => i.id == instanceId && i.userId == userId) = some inst)
    (hsub : inst.subtaskInstances.find?
      (fun si => si.subtaskId == subtaskId) = some e) :
    ∃ newInst,
      (toggleSubtaskInstance st userId instanceId subtaskId).2
          = Except.ok newInst
      ∧ newInst.subtaskInstances
          = toggleFirstEntry subtaskId inst.subtaskInstances
      ∧ (newInst.subtaskInstances.all (fun si => si.completed) = true →
          newInst.completed = true)
      ∧ (newInst.subtaskInstances.any (fun si => !si.completed) = true →
          inst.completed = true → newInst.completed = false)
      ∧ (toggleSubtaskInstance st userId instanceId subtaskId).1.tasks
          = st.tasks
      ∧ (toggleSubtaskInstance st userId instanceId subtaskId).1.subtasks
          = st.subtasks := by
  have hlen : 0 < (toggleFirstEntry subtaskId inst.subtaskInstances).length := by
    rw [toggleFirstEntry_length]
    exact List.length_pos.2 (List.ne_nil_of_mem (mem_of_find?_entry hsub))
  refine ⟨toggleSubtaskInstanceCore inst subtaskId, ?_, rfl, ?_, ?_, ?_, ?_⟩
  · simp [toggleSubtaskInstance, hfind, hsub]
  · intro hall
    have hall2 : (toggleFirstEntry subtaskId inst.subtaskInstances).all
        (fun si => si.completed) = true := hall
    simp [toggleSubtaskInstanceCore, hall2, hlen]
  · intro hany hcompl
    have hany2 : (toggleFirstEntry subtaskId inst.subtaskInstances).any
        (fun si => !si.completed) = true := hany
    have hallf : (toggleFirstEntry subtaskId inst.subtaskInstances).all
        (fun si => si.completed) = false := by
      rcases List.any_eq_true.1 hany2 with ⟨si, hsi, hval⟩
      rcases hb : (toggleFirstEntry subtaskId inst.subtaskInstances).all
          (fun si => si.completed) with _ | _
      · rfl
      · have := List.all_eq_true.1 hb si hsi
        simp only [this] at hval
        exact absurd hval (by simp)
    simp [toggleSubtaskInstanceCore, hallf, hany2, hcompl]
  · simp [toggleSubtaskInstance, hfind, hsub]
  · simp [toggleSubtaskInstance, hfind, hsub]

/-- Witness for C4: instance entries `[(1, complete), (2, incomplete)]`;
toggling subtask 2 completes every entry, so the instance auto-completes. -/
def c4wInst : TaskInstanceDoc :=
  { id := 1, taskId := 1, userId := 1, date := 0, completed := false,
    subtaskInstances := [{ subtaskId := 1, completed := true },
                         { subtaskId := 2, completed := false }] }

def c4wStore : Store :=
  { tasks := [], subtasks := [], instances := [c4wInst] }

theorem c4_subtask_instance_toggle_witness :
    ∃ newInst,
      (toggleSubtaskInstance c4wStore 1 1 2).2 = Except.ok newInst
      ∧ newInst.subtaskInstances
          = toggleFirstEntry 2 c4wInst.subtaskInstances
      ∧ (newInst.subtaskInstances.all (fun si => si.completed) = true →
          newInst.completed = true)
      ∧ (newInst.subtaskInstances.any (fun si => !si.completed) = true →
          c4wInst.completed = true → newInst.completed = false)
      ∧ (toggleSubtaskInstance c4wStore 1 1 2).1.tasks = c4wStore.tasks
      ∧ (toggleSubtaskInstance c4wStore 1 1 2).1.subtasks
          = c4wStore.subtasks :=
  c4_subtask_instance_toggle c4wStore 1 1 2 c4wInst
    { subtaskId := 2, completed := false } (by decide) (by decide)

/-- C5: toggling a task instance's completed flag directly
(`PUT /task-instances/:id/complete`) negates the flag and forces every
embedded subtask instance's completed flag to the instance's new value (the
entry set itself is unchanged). -/
theorem c5_instance_toggle_cascade (st : Store) (userId instanceId : Nat)
    (inst : TaskInstanceDoc)
    (hfind : st.instances.find?
      (fun i => i.id == instanceId && i.userId == userId) = some inst) :
    ∃ newInst,
      (toggleInstanceComplete st userId instanceId).2 = Except.ok newInst
      ∧ newInst.completed = !inst.completed
      ∧ (∀ e2 ∈ newInst.subtaskInstances, e2.completed = !inst.completed)
      ∧ newInst.subtaskInstances.map (fun e2 => e2.subtaskId)
          = inst.subtaskInstances.map (fun e2 => e2.subtaskId) := by
  unfold toggleInstanceComplete
  rw [hfind]
  refine ⟨_, rfl, rfl, ?_, ?_⟩
  · intro e2 he2
    obtain ⟨e0, _, heq⟩ := List.mem_map.1 he2
    rw [← heq]
  · rw [List.map_map]
    rfl

/-- Witness for C5: a completed instance with two completed entries toggles
to incomplete, and both entries are forced incomplete. -/
def c5wInst : TaskInstanceDoc :=
  { id := 2, taskId := 1, userId := 1, date := 0, completed := true,
    subtaskInstances := [{ subtaskId := 1, completed := true },
                         { subtaskId := 2, completed := true }] }

def c5wStore : Store :=
  { tasks := [], subtasks := [], instances := [c5wInst] }

theorem c5_instance_toggle_cascade_witness :
    ∃ newInst,
      (toggleInstanceComplete c5wStore 1 2).2 = Except.ok newInst
      ∧ newInst.completed = !c5wInst.completed
      ∧ (∀ e2 ∈ newInst.subtaskInstances, e2.completed = !c5wInst.completed)
      ∧ newInst.subtaskInstances.map (fun e2 => e2.subtaskId)
          = c5wInst.subtaskInstances.map (fun e2 => e2.subtaskId) :=
  c5_instance_toggle_cascade c5wStore 1 2 c5wInst (by decide)

/-- C10: deleting a task (`DELETE /tasks/:id`) deletes the task record and
every subtask record belonging to it, leaves every other task and subtask in
place, and leaves the task-instance store entirely untouched — instances for
the deleted task survive with their entries and completed flags unchanged. -/
theorem c10_delete_task_frame (st : Store) (userId taskId : Nat) (t : Task)
    (hfind : st.tasks.find?
      (fun t2 => t2.id == taskId && t2.userId == userId) = some t) :
    (deleteTask st userId taskId).2 = Except.ok ()
    ∧ (deleteTask st userId taskId).1.instances = st.instances
    ∧ (∀ t2 ∈ (deleteTask st userId taskId).1.tasks, t2.id ≠ taskId)
    ∧ (∀ t2 ∈ st.tasks, t2.id ≠ taskId →
        t2 ∈ (deleteTask st userId taskId).1.tasks)
    ∧ (∀ s ∈ (deleteTask st userId taskId).1.subtasks, s.taskId ≠ taskId)
    ∧ (∀ s ∈ st.subtasks, s.taskId ≠ taskId →
        s ∈ (deleteTask st userId taskId).1.subtasks) := by
  unfold deleteTask
  rw [hfind]
  refine ⟨rfl, rfl, ?_, ?_, ?_, ?_⟩
  · intro t2 ht2
    have h := (List.mem_filter.1 ht2).2
    simpa using h
  · intro t2 ht2 hne
    exact List.mem_filter.2 ⟨ht2, by simpa using hne⟩
  · intro s hs
    have h := (List.mem_filter.1 hs).2
    simpa using h
  · intro s hs hne
    exact List.mem_filter.2 ⟨hs, by simpa using hne⟩

/-- Witness for C10: deleting task 1 removes it and its subtask but leaves
the instance store as it was. -/
def c10wStore : Store :=
  { tasks := [mkTask 1 1 1, mkTask 2 2 2],
    subtasks := [{ id := 11, taskId := 1, title := "s", completed := false,
                   notes := "" }],
    instances := [c4wInst] }

theorem c10_delete_task_frame_witness :
    (deleteTask c10wStore 1 1).2 = Except.ok ()
    ∧ (deleteTask c10wStore 1 1).1.instances = c10wStore.instances
    ∧ (∀ t2 ∈ (deleteTask c10wStore 1 1).1.tasks, t2.id ≠ 1)
    ∧ (∀ t2 ∈ c10wStore.tasks, t2.id ≠ 1 →
        t2 ∈ (deleteTask c10wStore 1 1).1.tasks)
    ∧ (∀ s ∈ (deleteTask c10wStore 1 1).1.subtasks, s.taskId ≠ 1)
    ∧ (∀ s ∈ c10wStore.subtasks, s.taskId ≠ 1 →
        s ∈ (deleteTask c10wStore 1 1).1.subtasks) :=
  c10_delete_task_frame c10wStore 1 1 (mkTask 1 1 1) (by decide)

/-! ## Task creation and update (`src/routes/tasks.js` 92-228,
`src/routes/admin.js` 115-211)

`POST /tasks` and `POST /admin/create-task` run the same date validation
(both paths are modelled by one function): if both dates are present and the
end is before the start, reject; if exactly one date is present, reject;
otherwise store the task with both dates or with neither.  `PUT /tasks/:id`
validates only when the update supplies at least one date, comparing the
effective pair (updated value, or the task's current value), and then
applies the updates with `Object.assign`.  Dates are day numbers (the code
normalizes each side to the start of its day before comparing). -/

/-- Task creation (`tasks.js` 92-171 and the identical validation in
`admin.js` 115-211); `nextOrder` abstracts the computed next order number
and `createdAt` the timestamp. -/
def createTask (title : String) (startDate endDate : Option Int)
    (newId userId : Nat) (nextOrder : Int) (createdAt : Nat) :
    Except String Task :=
  match startDate, endDate with
  | some s, some e =>
      if e < s then Except.error "End date must be after or equal to start date"
      else Except.ok
        { id := newId, userId := userId, title := title, completed := false,
          order := nextOrder, startDate := some s, endDate := some e,
          createdAt := createdAt, subtasks := [] }
  | none, none =>
      Except.ok
        { id := newId, userId := userId, title := title, completed := false,
          order := nextOrder, startDate := none, endDate := none,
          createdAt := createdAt, subtasks := [] }
  | _, _ =>
      Except.error "Both start date and end date must be provided together, or leave both empty for static tasks"

/-- An update payload for `PUT /tasks/:id`: `some` marks a field present in
the request body (the validators only let well-formed values through). -/
structure TaskUpdates where
  title : Option String
  completed : Option Bool
  startDate : Option Int
  endDate : Option Int
deriving DecidableEq

/-- The `Object.assign(task, updates)` of `tasks.js` line 219. -/
def applyUpdates (t : Task) (u : TaskUpdates) : Task :=
  { t with
      title := u.title.getD t.title,
      completed := u.completed.getD t.completed,
      startDate := match u.startDate with | some d => some d | none => t.startDate,
      endDate := match u.endDate with | some d => some d | none => t.endDate }

/-- `PUT /tasks/:id` (`tasks.js` 176-228), date handling only: when the
update supplies a date, the effective pair (updated value, else the task's
stored value) is checked — but only when both effective dates are present.
The handler's cascade of a `completed` update into the task's subtasks is
modelled separately (it does not interact with the dates). -/
def putTask (t : Task) (u : TaskUpdates) : Except String Task :=
  if u.startDate.isSome || u.endDate.isSome then
    match (match u.startDate with | some d => some d | none => t.startDate),
          (match u.endDate with | some d => some d | none => t.endDate) with
    | some sd, some ed =>
        if ed < sd then
          Except.error "End date must be after or equal to start date"
        else Except.ok (applyUpdates t u)
    | _, _ => Except.ok (applyUpdates t u)
  else Except.ok (applyUpdates t u)

/-- Counterexample for C7 as stated: the claim covers `PUT /tasks/:id`, but
the update path never checks the both-present-or-both-absent invariant: an
update that adds only a start date to a static task is accepted, and the
stored task then has a start date and no end date. -/
def c7cTask : Task :=
  { id := 1, userId := 1, title := "t", completed := false, order := 1,
    startDate := none, endDate := none, createdAt := 0, subtasks := [] }

def c7cUpd : TaskUpdates :=
  { title := none, completed := none, startDate := some 5, endDate := none }

theorem c7_counterexample :
    putTask c7cTask c7cUpd = Except.ok { c7cTask with startDate := some 5 }
    ∧ ({ c7cTask with startDate := some 5 }).startDate.isSome = true
    ∧ ({ c7cTask with startDate := some 5 }).endDate.isSome = false :=
  ⟨rfl, rfl, rfl⟩

/-- C7 (amended): every task accepted at creation (`POST /tasks` and
`POST /admin/create-task`) has startDate and endDate both present or both
absent, and end not before start when both are present; a create request
with end before start, or with exactly one of the two dates, is rejected
and no task is stored.  `PUT /tasks/:id` enforces only the ordering: when
the update supplies at least one date, the task it stores cannot carry an
effective pair with end before start — but it does not enforce the
both-or-neither invariant (see the counterexample). -/
theorem c7_date_validation (title : String) (sd ed : Option Int)
    (newId userId : Nat) (nextOrder : Int) (createdAt : Nat)
    (t : Task) (u : TaskUpdates) :
    (∀ task, createTask title sd ed newId userId nextOrder createdAt
        = Except.ok task →
      (task.startDate.isSome ↔ task.endDate.isSome)
      ∧ (∀ s e, task.startDate = some s → task.endDate = some e → s ≤ e))
    ∧ (∀ s e, sd = some s → ed = some e → e < s →
        createTask title sd ed newId userId nextOrder createdAt
          = Except.error "End date must be after or equal to start date")
    ∧ ((sd.isSome ∧ ed.isNone) ∨ (sd.isNone ∧ ed.isSome) →
        createTask title sd ed newId userId nextOrder createdAt
          = Except.error "Both start date and end date must be provided together, or leave both empty for static tasks")
    ∧ (∀ t2, putTask t u = Except.ok t2 →
        (u.startDate.isSome ∨ u.endDate.isSome) →
        ∀ s e, t2.startDate = some s → t2.endDate = some e → s ≤ e) := by
  refine ⟨?_, ?_, ?_, ?_⟩
  · intro task htask
    unfold createTask at htask
    split at htask
    · split at htask
      · exact absurd htask (by simp)
      · rename_i s e hlt
        have h := Except.ok.inj htask
        subst h
        refine ⟨by simp, ?_⟩
        intro s2 e2 hs2 he2
        simp only [Option.some.injEq] at hs2 he2
        omega
    · have h := Except.ok.inj htask
      subst h
      refine ⟨by simp, ?_⟩
      intro s2 e2 hs2 he2
      simp at hs2
    · exact absurd htask (by simp)
  · intro s e hs he hlt
    subst hs
    subst he
    simp [createTask, hlt]
  · intro hone
    rcases hone with ⟨h1, h2⟩ | ⟨h1, h2⟩
    · obtain ⟨s, hs⟩ := Option.isSome_iff_exists.1 h1
      have he : ed = none := Option.isNone_iff_eq_none.1 h2
      subst hs
      subst he
      rfl
    · obtain ⟨e, he⟩ := Option.isSome_iff_exists.1 h2
      have hs : sd = none := Option.isNone_iff_eq_none.1 h1
      subst hs
      subst he
      rfl
  · intro t2 ht2 hdates s e hsval heval
    unfold putTask at ht2
    rw [if_pos (by rcases hdates with h | h <;> simp [h])] at ht2
    have hxs : (applyUpdates t u).startDate
        = (match u.startDate with | some d => some d | none => t.startDate) := rfl
    have hxe : (applyUpdates t u).endDate
        = (match u.endDate with | some d => some d | none => t.endDate) := rfl
    rcases hok : (match u.startDate with
        | some d => some d | none => t.startDate) with _ | d2 <;>
      rcases hok2 : (match u.endDate with
          | some d => some d | none => t.endDate) with _ | e2 <;>
      simp only [hok, hok2] at ht2
    · have h := Except.ok.inj ht2
      subst h
      rw [hxs, hok] at hsval
      exact absurd hsval (by simp)
    · have h := Except.ok.inj ht2
      subst h
      rw [hxs, hok] at hsval
      exact absurd hsval (by simp)
    · have h := Except.ok.inj ht2
      subst h
      rw [hxe, hok2] at heval
      exact absurd heval (by simp)
    · split at ht2
      · exact absurd ht2 (by simp)
      · rename_i hlt
        have h := Except.ok.inj ht2
        subst h
        rw [hxs, hok] at hsval
        rw [hxe, hok2] at heval
        simp only [Option.some.injEq] at hsval heval
        omega

/-- Witness for C7 (amended): a create with end before start is rejected,
and a create with only a start date is rejected. -/
theorem c7_date_validation_witness :
    createTask "t" (some 3) (some 1) 1 1 1 0
      = Except.error "End date must be after or equal to start date"
    ∧ createTask "t" (some 3) none 1 1 1 0
      = Except.error "Both start date and end date must be provided together, or leave both empty for static tasks" :=
  ⟨(c7_date_validation "t" (some 3) (some 1) 1 1 1 0 c7cTask c7cUpd).2.1
      3 1 rfl rfl (by decide),
   (c7_date_validation "t" (some 3) none 1 1 1 0 c7cTask c7cUpd).2.2.1
      (Or.inl ⟨rfl, rfl⟩)⟩

/-! ## Reset codes (`src/routes/admin.js` 306-308, 330-395)

`POST /admin/reset-codes` first marks every unused code for the target email
as used (`ResetCode.updateMany({ email, isUsed: false }, { isUsed: true })`),
then draws random 6-digit codes until one collides with no currently-unused
code, and stores the new code.  The unbounded regenerate-on-collision loop
is modelled by a finite stream of candidate codes (the function returns
`none` if the stream is exhausted, which the loop cannot do).  The stored
record's `isUsed := false` default is modelled from the spec, which
describes reset codes as carrying a used flag that is initially unset
(`src/models/ResetCode.js` is not part of the sources). -/

structure ResetCode where
  id : Nat
  code : Nat
  email : String
  isUsed : Bool
  expiresAt : Int
deriving DecidableEq

/-- `admin.js` lines 358-362: retire every unused code for the email. -/
def retireCodes (codes : List ResetCode) (email : String) : List ResetCode :=
  codes.map (fun c =>
    if c.email == email && !c.isUsed then { c with isUsed := true } else c)

/-- `admin.js` lines 364-371: draw candidates until one matches no
currently-unused code. -/
def pickUnusedUniqueCode (candidates : List Nat) (codes : List ResetCode) :
    Option Nat :=
  candidates.find? (fun cand =>
    !(codes.any (fun c => c.code == cand && !c.isUsed)))

/-- `POST /admin/reset-codes` (`admin.js` 333-395), acting on the reset-code
store (the user-existence and whitelist checks that precede it do not touch
this store). -/
def issueResetCode (codes : List ResetCode) (email : String)
    (candidates : List Nat) (newId : Nat) (expiry : Int) :
    Option (List ResetCode) :=
  match pickUnusedUniqueCode candidates (retireCodes codes email) with
  | none => none
  | some c =>
      some (retireCodes codes email ++
        [{ id := newId, code := c, email := email, isUsed := false,
           expiresAt := expiry }])

/-- The currently-unused codes held for an email. -/
def unusedCodesFor (codes : List ResetCode) (email : String) :
    List ResetCode :=
  codes.filter (fun c => c.email == email && !c.isUsed)

/-- Helper: after retiring, no code for the email is still unused. -/
theorem retireCodes_no_unused (codes : List ResetCode) (email : String) :
    ∀ c ∈ retireCodes codes email, c.email = email → c.isUsed = true := by
  intro c hc hcEmail
  unfold retireCodes at hc
  obtain ⟨c0, _, heq⟩ := List.mem_map.1 hc
  by_cases hcond : (c0.email == email && !c0.isUsed) = true
  · rw [if_pos hcond] at heq
    rw [← heq]
  · rw [if_neg hcond] at heq
    subst heq
    rcases hb : c0.isUsed with _ | _
    · exfalso
      apply hcond
      simp [hcEmail, hb]
    · rfl

/-- Helper: retiring codes of one email does not change the unused codes of
any other email. -/
theorem retireCodes_other_email (codes : List ResetCode) (email e2 : String)
    (hne : e2 ≠ email) :
    unusedCodesFor (retireCodes codes email) e2 = unusedCodesFor codes e2 := by
  have hne2 : (email == e2) = false :=
    beq_eq_false_iff_ne.2 (fun h => hne h.symm)
  unfold unusedCodesFor retireCodes
  rw [List.filter_map]
  have h1 : ∀ c ∈ codes,
      ((fun c2 : ResetCode => c2.email == e2 && !c2.isUsed) ∘
        (fun c2 : ResetCode => if c2.email == email && !c2.isUsed
          then { c2 with isUsed := true } else c2)) c
      = (fun c2 : ResetCode => c2.email == e2 && !c2.isUsed) c := by
    intro c _
    simp only [Function.comp_apply]
    by_cases hcond : (c.email == email && !c.isUsed) = true
    · rw [if_pos hcond]
      have hcEmail : c.email = email := by
        have h3 := hcond
        rw [Bool.and_eq_true] at h3
        exact beq_iff_eq.1 h3.1
      simp [hcEmail, hne2]
    · rw [if_neg hcond]
  rw [List.filter_congr h1]
  have h2 : ∀ c ∈ codes.filter (fun c2 : ResetCode => c2.email == e2 && !c2.isUsed),
      (fun c2 : ResetCode => if c2.email == email && !c2.isUsed
        then { c2 with isUsed := true } else c2) c
      = (fun c2 : ResetCode => c2) c := by
    intro c hc
    have hp := (List.mem_filter.1 hc).2
    have hcEmail : c.email = e2 := by
      have h3 := hp
      rw [Bool.and_eq_true] at h3
      exact beq_iff_eq.1 h3.1
    have hcond : ¬((c.email == email && !c.isUsed) = true) := by
      rw [Bool.and_eq_true]
      rintro ⟨h4, -⟩
      refine hne ?_
      rw [← hcEmail]
      exact beq_iff_eq.1 h4
    exact if_neg hcond
  rw [List.map_congr_left h2, List.map_id']

/-- The record stored for a freshly issued reset code (`admin.js` 373-379;
the `isUsed := false` default is the spec's "used flag", initially unset). -/
def newResetCode (newId c : Nat) (email : String) (expiry : Int) : ResetCode :=
  { id := newId, code := c, email := email, isUsed := false,
    expiresAt := expiry }

/-- C8: after a successful issue of a reset code for an email, every
previously unused code for that email has been marked used, the unused codes
for that email are exactly the one new record, the new code value differs
from that of every other currently-unused code, unused codes of other emails
are untouched, and the at-most-one-unused-code-per-email invariant is
preserved (and established for the target email). -/
theorem c8_reset_code_supersede (codes : List ResetCode) (email : String)
    (candidates : List Nat) (newId : Nat) (expiry : Int)
    (codes2 : List ResetCode)
    (hok : issueResetCode codes email candidates newId expiry = some codes2) :
    ∃ c,
      (∀ r ∈ codes, r.email = email → r.isUsed = false →
        ({ r with isUsed := true }) ∈ codes2)
      ∧ unusedCodesFor codes2 email = [newResetCode newId c email expiry]
      ∧ (∀ r ∈ codes2, r.isUsed = false → r.code = c →
          r = newResetCode newId c email expiry)
      ∧ (∀ e2, e2 ≠ email →
          unusedCodesFor codes2 e2 = unusedCodesFor codes e2)
      ∧ ((∀ e2, (unusedCodesFor codes e2).length ≤ 1) →
          ∀ e2, (unusedCodesFor codes2 e2).length ≤ 1) := by
  unfold issueResetCode at hok
  rcases hpick : pickUnusedUniqueCode candidates (retireCodes codes email)
    with _ | c
  · rw [hpick] at hok
    exact absurd hok (by simp)
  · rw [hpick] at hok
    have hcodes2 : codes2 = retireCodes codes email ++
        [newResetCode newId c email expiry] := by
      have h := (Option.some.inj hok).symm
      rw [h]
      rfl
    subst hcodes2
    have hfresh : ∀ r ∈ retireCodes codes email, r.isUsed = false →
        r.code ≠ c := by
      have hfound := List.find?_some hpick
      have hX : ∀ r ∈ retireCodes codes email,
          ¬((r.code == c && !r.isUsed) = true) := by
        rw [← List.any_eq_false]
        simpa using hfound
      intro r hr hused hcode
      apply hX r hr
      rw [Bool.and_eq_true]
      refine ⟨beq_iff_eq.2 hcode, ?_⟩
      rw [hused]
      rfl
    have hmain : unusedCodesFor (retireCodes codes email ++
        [newResetCode newId c email expiry]) email
        = [newResetCode newId c email expiry] := by
      unfold unusedCodesFor
      rw [List.filter_append]
      have hleft : (retireCodes codes email).filter
          (fun c2 => c2.email == email && !c2.isUsed) = [] := by
        rw [List.filter_eq_nil_iff]
        intro c2 hc2
        rw [Bool.and_eq_true]
        rintro ⟨hA, hB⟩
        have hcEmail := beq_iff_eq.1 hA
        have hused := retireCodes_no_unused codes email c2 hc2 hcEmail
        rw [hused] at hB
        simp at hB
      rw [hleft]
      simp [newResetCode]
    have hother : ∀ e2, e2 ≠ email →
        unusedCodesFor (retireCodes codes email ++
          [newResetCode newId c email expiry]) e2
        = unusedCodesFor codes e2 := by
      intro e2 hne
      unfold unusedCodesFor
      rw [List.filter_append]
      have hright : ([newResetCode newId c email expiry] : List ResetCode).filter
          (fun c2 => c2.email == e2 && !c2.isUsed) = [] := by
        simp [newResetCode, show ¬(email = e2) from fun h => hne h.symm]
      rw [hright, List.append_nil]
      exact retireCodes_other_email codes email e2 hne
    refine ⟨c, ?_, hmain, ?_, hother, ?_⟩
    · intro r hr hrEmail hrUnused
      refine List.mem_append_left _ ?_
      unfold retireCodes
      refine List.mem_map.2 ⟨r, hr, ?_⟩
      rw [if_pos (by simp [hrEmail, hrUnused])]
    · intro r hr hused hcode
      rcases List.mem_append.1 hr with hr1 | hr1
      · exact absurd hcode (hfresh r hr1 hused)
      · simpa using hr1
    · intro hinv e2
      by_cases he2 : e2 = email
      · rw [he2, hmain]
        simp
      · rw [hother e2 he2]
        exact hinv e2

/-- Witness for C8: issuing a code for an email with one live code retires
it and leaves exactly the new code live (the first candidate is accepted
even though it repeats the old value, because the old code is already
retired when the collision check runs). -/
def c8wOld : ResetCode :=
  { id := 1, code := 111111, email := "a@b.c", isUsed := false,
    expiresAt := 10 }

def c8wResult : List ResetCode :=
  retireCodes [c8wOld] "a@b.c" ++ [newResetCode 2 111111 "a@b.c" 20]

theorem c8_reset_code_supersede_witness :
    ∃ c,
      (∀ r ∈ [c8wOld], r.email = "a@b.c" → r.isUsed = false →
        ({ r with isUsed := true }) ∈ c8wResult)
      ∧ unusedCodesFor c8wResult "a@b.c" = [newResetCode 2 c "a@b.c" 20]
      ∧ (∀ r ∈ c8wResult, r.isUsed = false → r.code = c →
          r = newResetCode 2 c "a@b.c" 20)
      ∧ (∀ e2, e2 ≠ "a@b.c" →
          unusedCodesFor c8wResult e2 = unusedCodesFor [c8wOld] e2)
      ∧ ((∀ e2, (unusedCodesFor [c8wOld] e2).length ≤ 1) →
          ∀ e2, (unusedCodesFor c8wResult e2).length ≤ 1) :=
  c8_reset_code_supersede [c8wOld] "a@b.c" [111111, 222222] 2 20
    c8wResult rfl

/-! ## Registration (`src/routes/auth.js` 31-104)

The handler checks, in order: duplicate email (400), missing whitelist entry
for a non-bootstrap email (403), already-used whitelist entry (400); then it
creates the user (admin flag from the hardcoded list) and, for non-bootstrap
emails, marks the first matching whitelist entry used.  We model the user
and whitelist stores and return the resulting stores plus the outcome (an
`ApiError` carries the HTTP status and message). -/

structure User where
  id : Nat
  name : String
  email : String
  password : String
  isAdmin : Bool
deriving DecidableEq

structure WhitelistEntry where
  id : Nat
  email : String
  addedBy : Nat
  isUsed : Bool
  usedBy : Option Nat
deriving DecidableEq

structure AuthStore where
  users : List User
  whitelist : List WhitelistEntry
deriving DecidableEq

structure ApiError where
  status : Nat
  message : String
deriving DecidableEq

/-- The hardcoded bootstrap email of `auth.js` line 51. -/
def bootstrapEmail : String := "admin@afterlife.org.in"

/-- The 403 response of `auth.js` lines 54-57. -/
def notAuthorizedError : ApiError :=
  { status := 403,
    message := "Email not authorized. Please contact admin to whitelist your email address." }

/-- The fixed admin allow-list of `auth.js` lines 66-72. -/
def adminEmails : List String :=
  ["admin@afterlife.org.in", "xanderash44@gmail.com",
   "ashrith@afterlife.org.in", "dhanush@afterlife.org.in",
   "austinak@afterlife.org.in"]

/-- `Whitelist.findOneAndUpdate({ email }, { isUsed: true, usedBy })`
(`auth.js` 81-84): update the first matching entry. -/
def markFirstUsed (email : String) (uid : Nat) :
    List WhitelistEntry → List WhitelistEntry
  | [] => []
  | w :: rest =>
      if w.email == email then
        { w with isUsed := true, usedBy := some uid } :: rest
      else w :: markFirstUsed email uid rest

/-- The user record created at registration (`auth.js` 74-77): the admin
flag is granted exactly to the fixed allow-list. -/
def mkRegisteredUser (newUserId : Nat) (name email password : String) : User :=
  { id := newUserId, name := name, email := email, password := password,
    isAdmin := adminEmails.contains email }

/-- `POST /auth/register` (`auth.js` 31-104); `newUserId` abstracts the id
the database assigns.  Returns the resulting stores and either the created
user or the error response. -/
def registerUser (st : AuthStore) (name email password : String)
    (newUserId : Nat) : AuthStore × Except ApiError User :=
  if (st.users.find? (fun u => u.email == email)).isSome then
    (st, Except.error
      { status := 400, message := "User already exists with this email" })
  else if email != bootstrapEmail
      && (st.whitelist.find? (fun w => w.email == email)).isNone then
    (st, Except.error notAuthorizedError)
  else if email != bootstrapEmail
      && (((st.whitelist.find? (fun w => w.email == email)).map
            (fun w => w.isUsed)).getD false) then
    (st, Except.error
      { status := 400,
        message := "This email has already been used for registration" })
  else
    ({ users := st.users ++ [mkRegisteredUser newUserId name email password],
       whitelist :=
        if email != bootstrapEmail then markFirstUsed email newUserId st.whitelist
        else st.whitelist },
     Except.ok (mkRegisteredUser newUserId name email password))

/-- C9: a registration for a non-bootstrap email with no whitelist entry is
answered with the 403 authorization failure and changes nothing (in
particular no user record is created) — provided no user already holds that
email, in which case the earlier duplicate-email check answers 400 instead
(a state unreachable through the API, since registering a non-bootstrap
email marks a whitelist entry used and used entries cannot be deleted); and
a registration whose whitelist entry is already used fails with an error and
creates no user record, whatever else the store holds. -/
theorem c9_register_guard (st : AuthStore) (name email password : String)
    (newUserId : Nat) (hboot : email ≠ bootstrapEmail) :
    (st.whitelist.find? (fun w => w.email == email) = none →
      st.users.find? (fun u => u.email == email) = none →
      registerUser st name email password newUserId
        = (st, Except.error notAuthorizedError))
    ∧ (∀ w, st.whitelist.find? (fun w2 => w2.email == email) = some w →
        w.isUsed = true →
        ((registerUser st name email password newUserId).1.users = st.users
          ∧ ∃ err, (registerUser st name email password newUserId).2
              = Except.error err)) := by
  have hbootb : (email != bootstrapEmail) = true := bne_iff_ne.2 hboot
  constructor
  · intro hwl husers
    unfold registerUser
    rw [husers, hwl]
    simp [hbootb]
  · intro w hwl hwused
    unfold registerUser
    rcases hu : st.users.find? (fun u => u.email == email) with _ | u
    · rw [hu, hwl]
      simp [hbootb, hwused]
    · rw [hu]
      simp

/-- Witness for C9: with an empty store, registering a non-whitelisted email
fails with the 403 authorization error; with a used whitelist entry, it
fails and creates no user. -/
def c9wEntry : WhitelistEntry :=
  { id := 1, email := "x@y.com", addedBy := 1, isUsed := true,
    usedBy := some 7 }

def c9wStore : AuthStore := { users := [], whitelist := [c9wEntry] }

theorem c9_register_guard_witness :
    registerUser { users := [], whitelist := [] } "n" "x@y.com" "secret1" 3
      = ({ users := [], whitelist := [] }, Except.error notAuthorizedError)
    ∧ ((registerUser c9wStore "n" "x@y.com" "secret1" 3).1.users
        = c9wStore.users
      ∧ ∃ err, (registerUser c9wStore "n" "x@y.com" "secret1" 3).2
          = Except.error err) :=
  ⟨(c9_register_guard { users := [], whitelist := [] } "n" "x@y.com" "secret1" 3
      (by decide)).1 rfl rfl,
   (c9_register_guard c9wStore "n" "x@y.com" "secret1" 3 (by decide)).2
      c9wEntry rfl rfl⟩

end Organix
